import Mathlib

/-!
Verification development for the storemono smarthttp resilient HTTP client.

This file gives a shallow embedding of the request-execution pipeline found in
libs/smarthttp (the client facade, the retry layer, the circuit breaker layer
and the singleflight layer) and proves properties of that embedding.

Modelling conventions:
- Machine integers from the Go source are modelled as Int (signed Go int) or
  Nat where the source value is known non-negative.
- Go error values are modelled by the inductive GoError, whose constructors are
  the concrete error shapes this program can produce; the errIs function models
  the errors.Is chain-unwrapping judgement for the sentinels the source tests.
- Side effects on the Instrumentation collaborator and the set of issued
  network calls are modelled by explicit state passing of an Events record.
- The third-party retry loop (corsc go-commons retry.Client.Do), the hystrix
  breaker shell and the singleflight group are not part of this repository;
  they are modelled by their documented contracts, which the source code of
  this repository relies on (bounded attempts with a CanRetry predicate, run
  or fail-fast control, key-based coalescing).
-/

namespace Storemono

/-- HTTP response value: a status code plus a tag so that distinct response
values received on distinct attempts can be told apart. Bodies and headers are
not needed by the properties proved here. -/
structure Resp where
  statusCode : Nat
  tag : Nat
deriving DecidableEq, Repr

/-- A request body stream: the bytes still readable from the stream. -/
structure Body where
  data : List Nat
deriving DecidableEq, Repr

/-- HTTP request: method, URL and an optional body stream. -/
structure Request where
  method : String
  url : String
  body : Option Body
deriving DecidableEq, Repr

/-- Instrumentation warnings emitted during initialization, by call site. -/
inductive WarnEvent where
  | retriesMaxAttempts
  | retriesBaseDelay
  | retriesMaxDelay
  | cbMaxConcurrent
  | cbErrorThreshold
deriving DecidableEq, Repr

/-- Observable events accumulated while a call executes: instrumentation
reports and the list of requests actually handed to the base executor. -/
structure Events where
  warnings : List WarnEvent
  retryRetriable : List Nat
  retryNonRetriable : List Nat
  cbTracked : List Nat
  sfKeys : List String
  sfRuns : Nat
  baseReqs : List Request
deriving DecidableEq, Repr

/-- The empty event log. -/
def initEvents : Events := ⟨[], [], [], [], [], 0, []⟩

/-- Concrete error shapes this program can produce or observe, mirroring the
error values of the Go source.  urlWrapped models a url.Error produced by
http.Client.Do, with its Timeout() result as the Boolean field; connectionWrap
models the dialer wrapping ErrConnection with a formatted cause; timeoutWrap
models the base executor wrapping ErrTimeout (the cause is formatted as a plain
string in the source, so it is not unwrappable and is not carried here). -/
inductive GoError where
  | urlWrapped (inner : GoError) (timeoutFlag : Bool)
  | connectTimeout
  | connectionWrap (tag : Nat)
  | timeoutWrap
  | deadlineExceeded
  | canceled
  | retryImpossible
  | retryAllowed
  | attemptsExceeded
  | trackableStatusCode
  | circuitOpenErr
  | maxConcurrencyErr
  | circuitTimeoutErr
  | otherErr (tag : Nat)
deriving DecidableEq, Repr

/-- The sentinel error values that the source compares against with errors.Is. -/
inductive Sentinel where
  | errTimeout
  | errConnectTimeout
  | errConnection
  | ctxDeadline
  | ctxCanceled
  | sRetryImpossible
  | sRetryAllowed
  | sAttemptsExceeded
deriving DecidableEq, Repr

/-- errors.Is for the error shapes above: url.Error unwraps to its inner error;
the fmt wrap of ErrConnection matches ErrConnection; the fmt wrap of ErrTimeout
matches ErrTimeout; sentinels match themselves. -/
def errIs : GoError → Sentinel → Bool
  | .urlWrapped inner _, s => errIs inner s
  | .connectTimeout, s => s == .errConnectTimeout
  | .connectionWrap _, s => s == .errConnection
  | .timeoutWrap, s => s == .errTimeout
  | .deadlineExceeded, s => s == .ctxDeadline
  | .canceled, s => s == .ctxCanceled
  | .retryImpossible, s => s == .sRetryImpossible
  | .retryAllowed, s => s == .sRetryAllowed
  | .attemptsExceeded, s => s == .sAttemptsExceeded
  | .trackableStatusCode, _ => false
  | .circuitOpenErr, _ => false
  | .maxConcurrencyErr, _ => false
  | .circuitTimeoutErr, _ => false
  | .otherErr _, _ => false

/-- A pipeline layer: from a request and the event log so far to a
(response, error) pair and the updated event log. -/
abbrev Layer := Request → Events → (Option Resp × Option GoError) × Events

/-! ## Base executor (Client.Do inner doRequestFunc and the custom dialer) -/

/-- One outcome of the underlying http.Client.Do call.  Per the documented
contract of http.Client, on a non-nil error the response is nil, so the two
cases are exclusive. -/
inductive ClientDoOutcome where
  | ok (r : Resp)
  | fail (e : GoError)
deriving DecidableEq, Repr

/-- The errors.As url.Error extraction followed by urlErr.Timeout(), as tested
by the first branch of the base executor. -/
def urlErrTimeoutCheck : GoError → Bool
  | .urlWrapped _ flag => flag
  | _ => false

/-- Error classification performed by doRequestFunc in Client.Do: a url.Error
whose Timeout() reports true is wrapped into ErrTimeout; every other error
(context deadline, context cancellation, and anything else) is passed through
unchanged. -/
def classifyBaseErr (e : GoError) : GoError :=
  if urlErrTimeoutCheck e then .timeoutWrap else e

/-- The base executor: performs exactly one network attempt via the oracle
(indexed by how many base calls happened before), records the request it
issued, and classifies failures per doRequestFunc. -/
def baseExecutor (oracle : Nat → ClientDoOutcome) : Layer := fun req ev =>
  let n := ev.baseReqs.length
  let ev1 : Events := { ev with baseReqs := ev.baseReqs ++ [req] }
  match oracle n with
  | .ok r => ((some r, none), ev1)
  | .fail e => ((none, some (classifyBaseErr e)), ev1)

/-- Possible outcomes of the custom dialer DialContext call. -/
inductive DialResult where
  | conn
  | netErrTimeout
  | netErrOther (tag : Nat)
  | plainErr (tag : Nat)
deriving DecidableEq, Repr

/-- The error produced by GetTransportWithCustomDialer for each dial outcome:
a net.Error reporting a timeout becomes the ErrConnectTimeout sentinel, any
other net.Error is wrapped into ErrConnection, a non-net.Error is passed
through, and a successful dial produces no error. -/
def dialTransform : DialResult → Option GoError
  | .conn => none
  | .netErrTimeout => some .connectTimeout
  | .netErrOther t => some (.connectionWrap t)
  | .plainErr t => some (.otherErr t)

/-! ## Retry layer (retries.go) -/

/-- The non-retriable status codes enumerated in the first case of the switch
in Retries.buildMiddleware, as Go constant values. -/
def nonRetriableStatusCodes : List Nat :=
  [400, 401, 402, 403, 404, 405, 406, 407, 410, 411, 412, 413, 414, 415, 416,
   417, 418, 421, 422, 423, 424, 425, 426, 428, 429, 431, 451, 501, 502, 505,
   506, 507, 508, 510, 511]

/-- The retriable status codes enumerated in the second case of the switch in
Retries.buildMiddleware: 408, 500, 503, 504. -/
def retriableStatusCodes : List Nat := [408, 500, 503, 504]

/-- Classification of a response status code by the retry layer. -/
inductive StatusClass where
  | nonRetriable
  | retriable
  | ok
deriving DecidableEq, Repr

/-- The switch on resp.StatusCode in Retries.buildMiddleware: enumerated
non-retriable codes stop with errRetryImpossible, the four retriable codes
yield errRetryAllowed, everything else is the happy path. -/
def classifyStatus (code : Nat) : StatusClass :=
  if code ∈ nonRetriableStatusCodes then .nonRetriable
  else if code ∈ retriableStatusCodes then .retriable
  else .ok

/-- Result of cloneRequest: the state of the caller-supplied body stream after
the call (drained when a body was present), the mutated input request (its body
replaced by a buffered reader over the bytes that were read), and the clone
(an independent reader over the same buffered bytes).  Read errors cannot occur
for the in-memory streams modelled here. -/
structure CloneResult where
  origBodyAfter : Option Body
  mutated : Request
  clone : Request
deriving DecidableEq, Repr

/-- cloneRequest from retries.go: Clone the request; when a body is present,
read it fully into a buffer, replace the original request body by a reader
over that buffer and give the clone an independent reader over the same bytes. -/
def cloneRequest (req : Request) : CloneResult :=
  match req.body with
  | none => ⟨none, req, req⟩
  | some b =>
      ⟨some ⟨[]⟩,
       { req with body := some ⟨b.data⟩ },
       { req with body := some ⟨b.data⟩ }⟩

/-- The bounded retry loop: the closure body from Retries.buildMiddleware run
under the third-party retrier contract (up to fuel attempts; retry only while
the closure reports errRetryAllowed; report ErrAttemptsExceeded when attempts
run out while still retriable).  first tracks the isFirstTry flag: from the
second attempt on, the request is replaced by the previous clone and a fresh
clone is taken.  resp and innerErr model the variables captured by the closure.
Returns (retrier error, resp, innerErr) and the event log. -/
def retryLoop (inner : Layer) (fuel : Nat) (first : Bool) (req reqClone : Request)
    (resp : Option Resp) (innerErr : Option GoError) (ev : Events) :
    (Option GoError × Option Resp × Option GoError) × Events :=
  match fuel with
  | 0 => ((some .attemptsExceeded, resp, innerErr), ev)
  | fuel1 + 1 =>
      let next :=
        if first then (req, reqClone)
        else
          let c := cloneRequest reqClone
          (c.mutated, c.clone)
      let reqA := next.1
      let cloneA := next.2
      let step := inner reqA ev
      let resp1 := step.1.1
      let innerErr1 := step.1.2
      let ev1 := step.2
      match innerErr1 with
      | some e =>
          if errIs e .errTimeout then
            let ev2 := { ev1 with retryRetriable := ev1.retryRetriable ++ [666] }
            if fuel1 = 0 then ((some .attemptsExceeded, resp1, innerErr1), ev2)
            else retryLoop inner fuel1 false reqA cloneA resp1 innerErr1 ev2
          else ((some e, resp1, innerErr1), ev1)
      | none =>
          match resp1 with
          | some r =>
              match classifyStatus r.statusCode with
              | .nonRetriable =>
                  let ev2 :=
                    { ev1 with retryNonRetriable := ev1.retryNonRetriable ++ [r.statusCode] }
                  ((some .retryImpossible, resp1, innerErr1), ev2)
              | .retriable =>
                  let ev2 :=
                    { ev1 with retryRetriable := ev1.retryRetriable ++ [r.statusCode] }
                  if fuel1 = 0 then ((some .attemptsExceeded, resp1, innerErr1), ev2)
                  else retryLoop inner fuel1 false reqA cloneA resp1 innerErr1 ev2
              | .ok => ((none, resp1, innerErr1), ev1)
          | none => ((none, resp1, innerErr1), ev1)

/-- Retries.buildMiddleware: clone the incoming request up front, run the retry
loop, then map the retrier error through the final switch: timeout-classified
errors return a nil response with the error; the internal retry sentinels and
attempts-exceeded return the captured (resp, innerErr) pair; anything else
returns (resp, err). -/
def retriesMiddleware (maxAttempts : Nat) (inner : Layer) : Layer := fun req ev =>
  let c := cloneRequest req
  let run := retryLoop inner maxAttempts true c.mutated c.clone none none ev
  let err := run.1.1
  let resp := run.1.2.1
  let innerErr := run.1.2.2
  let ev1 := run.2
  match err with
  | none => ((resp, none), ev1)
  | some e =>
      if errIs e .errTimeout || errIs e .ctxDeadline then ((none, some e), ev1)
      else if e = .retryImpossible ∨ e = .retryAllowed ∨ e = .attemptsExceeded then
        ((resp, innerErr), ev1)
      else ((resp, some e), ev1)

/-- Retry configuration after initialization: the effective maximum number of
attempts the retrier was built with (getMaxAttempts guarantees it positive). -/
structure RetriesCfg where
  maxAttempts : Nat
deriving DecidableEq, Repr

/-- Retries.addMiddleware: a nil Retries configuration is a pass-through. -/
def retriesAddMiddleware (cfg : Option RetriesCfg) (inner : Layer) : Layer :=
  match cfg with
  | none => inner
  | some c => retriesMiddleware c.maxAttempts inner

/-! ## Circuit breaker layer (circuit_breaker.go, vendored under
services/shop-service as part of libs/smarthttp) -/

/-- The enforced minimum for the configured error percent threshold. -/
def minErrorThreshold : Int := 50

/-- The default error percent threshold. -/
def defaultErrorThreshold : Int := 80

/-- The default maximum number of concurrent requests (hystrix default). -/
def defaultMaxConcurrentRequests : Int := 10

/-- Circuit breaker configuration fields, as Go ints (zero when unset). -/
structure CBCfg where
  errorPercentThreshold : Int
  maxConcurrentRequests : Int
deriving DecidableEq, Repr

/-- CircuitBreaker.getErrorPercent: use the configured threshold when it is
strictly greater than minErrorThreshold, otherwise warn and fall back to the
default threshold. -/
def getErrorPercent (cfg : CBCfg) (ev : Events) : Int × Events :=
  if minErrorThreshold < cfg.errorPercentThreshold then (cfg.errorPercentThreshold, ev)
  else (defaultErrorThreshold,
    { ev with warnings := ev.warnings ++ [WarnEvent.cbErrorThreshold] })

/-- CircuitBreaker.getMaxConcurrent: use the configured value when positive,
otherwise warn and fall back to the hystrix default. -/
def getMaxConcurrent (cfg : CBCfg) (ev : Events) : Int × Events :=
  if 0 < cfg.maxConcurrentRequests then (cfg.maxConcurrentRequests, ev)
  else (defaultMaxConcurrentRequests,
    { ev with warnings := ev.warnings ++ [WarnEvent.cbMaxConcurrent] })

/-- The status codes tracked by the circuit breaker, from the switch in
CircuitBreaker.outErrorBasedOnResponseCode, as Go constant values. -/
def cbTrackedStatusCodes : List Nat :=
  [408, 429, 500, 501, 502, 503, 504, 505, 506, 507, 508, 510, 511]

/-- CircuitBreaker.outErrorBasedOnResponseCode: tracked status codes report
CBTrackedStatusCode and yield the trackable sentinel error (so hystrix records
a failure); every other status code yields no error. -/
def outErrorBasedOnResponseCode (r : Resp) (ev : Events) : Option GoError × Events :=
  if r.statusCode ∈ cbTrackedStatusCodes then
    (some .trackableStatusCode, { ev with cbTracked := ev.cbTracked ++ [r.statusCode] })
  else (none, ev)

/-- Admission decision made by the hystrix library for one command execution:
run the wrapped closure, or fail fast with one of its sentinel errors.  The
hystrix internals (rolling windows, semaphores) are third-party and are
abstracted into this control input. -/
inductive HystrixControl where
  | run
  | rejectOpen
  | rejectConcurrency
  | timeoutCmd
deriving DecidableEq, Repr

/-- CircuitBreaker.buildMiddleware: under hystrix fail-fast the closure never
runs and the captured resp stays nil while the hystrix sentinel is mapped to
the corresponding smarthttp error; when the closure runs, a wrapped-layer error
is passed through, and otherwise the response is classified — on both the
tracked (errTrackableStatusCodeError) and untracked (nil) outcomes the wrapped
response is returned with a nil error. -/
def cbMiddleware (ctl : HystrixControl) (inner : Layer) : Layer := fun req ev =>
  match ctl with
  | .rejectOpen => ((none, some .circuitOpenErr), ev)
  | .rejectConcurrency => ((none, some .maxConcurrencyErr), ev)
  | .timeoutCmd => ((none, some .circuitTimeoutErr), ev)
  | .run =>
      let step := inner req ev
      let resp1 := step.1.1
      let innerErr1 := step.1.2
      let ev1 := step.2
      match innerErr1 with
      | some e => ((resp1, some e), ev1)
      | none =>
          match resp1 with
          | some r =>
              let out := outErrorBasedOnResponseCode r ev1
              ((resp1, none), out.2)
          | none => ((resp1, none), ev1)

/-- CircuitBreaker.addMiddleware: a nil receiver is a pass-through. -/
def cbAddMiddleware (cfg : Option CBCfg) (ctl : HystrixControl) (inner : Layer) : Layer :=
  match cfg with
  | none => inner
  | some _ => cbMiddleware ctl inner

/-! ## Singleflight layer (singleflight.go) -/

/-- Singleflight configuration: the optional custom key generator. -/
structure SFCfg where
  keyGenerator : Option (Request → String)

/-- The method string http.MethodGet. -/
def methodGet : String := "GET"

/-- The method string http.MethodHead. -/
def methodHead : String := "HEAD"

/-- The method string http.MethodPost. -/
def methodPost : String := "POST"

/-- The separator written between method and URL by DefaultSFKeyGenerator. -/
def sfKeySep : String := "||"

/-- DefaultSFKeyGenerator: method, the two-pipe separator, then the full URL
string. -/
def DefaultSFKeyGenerator (req : Request) : String :=
  req.method ++ sfKeySep ++ req.url

/-- The key generator actually installed by Singleflight.doInitOnce: the custom
one when supplied, otherwise DefaultSFKeyGenerator. -/
def actualKeyGenerator (cfg : SFCfg) : Request → String :=
  match cfg.keyGenerator with
  | some g => g
  | none => DefaultSFKeyGenerator

/-- The guard at the top of Singleflight.buildMiddleware: singleflight is
bypassed when no custom key generator was supplied and the method is not GET. -/
def sfBypass (cfg : SFCfg) (req : Request) : Bool :=
  cfg.keyGenerator.isNone && (req.method != methodGet)

/-- Singleflight.buildMiddleware for a caller with no in-flight peer: bypass
per the guard, otherwise compute and record the key (mirroring the source's
trackKey test hook), run the group function once, and hand the group result
back (a nil response stays nil, any other is returned with the group error). -/
def sfMiddleware (cfg : SFCfg) (inner : Layer) : Layer := fun req ev =>
  if sfBypass cfg req then inner req ev
  else
    let key := actualKeyGenerator cfg req
    let ev1 := { ev with sfKeys := ev.sfKeys ++ [key], sfRuns := ev.sfRuns + 1 }
    let step := inner req ev1
    match step.1.1 with
    | some r => ((some r, step.1.2), step.2)
    | none => ((none, step.1.2), step.2)

/-- Singleflight.addMiddleware: a nil receiver is a pass-through. -/
def sfAddMiddleware (cfg : Option SFCfg) (inner : Layer) : Layer :=
  match cfg with
  | none => inner
  | some c => sfMiddleware c inner

/-- Two callers going through Singleflight.buildMiddleware in the scenario
where caller A arrives first and caller B arrives while A's execution is still
in flight.  Modelled from the documented contract of the x/sync singleflight
group used by the source: when both callers coalesce (neither bypasses and the
keys are equal) the group function runs exactly once and the waiting caller
receives the identical (value, err) pair; otherwise the two calls execute
independently (serialized here, which fixes one interleaving of the oracle). -/
def sfMiddlewarePair (cfg : SFCfg) (inner : Layer) (reqA reqB : Request) (ev : Events) :
    ((Option Resp × Option GoError) × (Option Resp × Option GoError)) × Events :=
  if sfBypass cfg reqA || sfBypass cfg reqB then
    let a := sfMiddleware cfg inner reqA ev
    let b := sfMiddleware cfg inner reqB a.2
    ((a.1, b.1), b.2)
  else
    let keyA := actualKeyGenerator cfg reqA
    let keyB := actualKeyGenerator cfg reqB
    if keyA = keyB then
      let a := sfMiddleware cfg inner reqA ev
      ((a.1, a.1), { a.2 with sfKeys := a.2.sfKeys ++ [keyB] })
    else
      let a := sfMiddleware cfg inner reqA ev
      let b := sfMiddleware cfg inner reqB a.2
      ((a.1, b.1), b.2)

/-! ## Client facade (http.go: Client.Do) -/

/-- Client configuration relevant to middleware composition.  The Retries and
Singleflight fields are pointers in the source (nil means absent); the
CircuitBreaker field is a struct value, so Client.Do always passes a non-nil
receiver to its addMiddleware. -/
structure ClientCfg where
  retries : Option RetriesCfg
  singleflight : Option SFCfg
  circuitBreaker : CBCfg

/-- Client.Do middleware composition: the base executor is wrapped by the
retries middleware, then the circuit breaker middleware, then the singleflight
middleware, and the outermost closure is invoked on the request. -/
def clientDo (cfg : ClientCfg) (ctl : HystrixControl) (oracle : Nat → ClientDoOutcome) :
    Layer := fun req ev =>
  let doRequestFunc0 : Layer := baseExecutor oracle
  let doRequestFunc1 : Layer := retriesAddMiddleware cfg.retries doRequestFunc0
  let doRequestFunc2 : Layer := cbAddMiddleware (some cfg.circuitBreaker) ctl doRequestFunc1
  let doRequestFunc3 : Layer := sfAddMiddleware cfg.singleflight doRequestFunc2
  doRequestFunc3 req ev

/-- Client.Do for two callers in the coalescing scenario of sfMiddlewarePair:
both callers share the client's composed breaker-plus-retries pipeline. -/
def clientDoPair (cfg : ClientCfg) (ctl : HystrixControl) (oracle : Nat → ClientDoOutcome)
    (reqA reqB : Request) (ev : Events) :
    ((Option Resp × Option GoError) × (Option Resp × Option GoError)) × Events :=
  let doRequestFunc0 : Layer := baseExecutor oracle
  let doRequestFunc1 : Layer := retriesAddMiddleware cfg.retries doRequestFunc0
  let doRequestFunc2 : Layer := cbAddMiddleware (some cfg.circuitBreaker) ctl doRequestFunc1
  match cfg.singleflight with
  | none =>
      let a := doRequestFunc2 reqA ev
      let b := doRequestFunc2 reqB a.2
      ((a.1, b.1), b.2)
  | some sfc => sfMiddlewarePair sfc doRequestFunc2 reqA reqB ev

/-! ## Definitions following the claims' wording (for refinement comparison)

These definitions are written from the specification text, not from the
source, and exist only to be compared with the source-derived definitions
above. -/

/-- Claim wording: the retriable status codes are 408, 500, 503 and 504. -/
def specRetriableStatus (c : Nat) : Prop :=
  c = 408 ∨ c = 500 ∨ c = 503 ∨ c = 504

instance (c : Nat) : Decidable (specRetriableStatus c) := by
  unfold specRetriableStatus
  infer_instance

/-- Claim wording: the non-retriable set is 400-417, 421-431, 451, 501, 502
and 505-511, minus the retriable codes. -/
def specNonRetriableStatus (c : Nat) : Prop :=
  ((400 ≤ c ∧ c ≤ 417) ∨ (421 ≤ c ∧ c ≤ 431) ∨ c = 451 ∨ c = 501 ∨ c = 502 ∨
    (505 ≤ c ∧ c ≤ 511)) ∧ ¬ specRetriableStatus c

instance (c : Nat) : Decidable (specNonRetriableStatus c) := by
  unfold specNonRetriableStatus
  infer_instance

/-- Claim wording: exactly 408, 429, 500, 501, 502, 503, 504, 505, 506, 507,
508, 510 and 511 count as tracked failures for the breaker. -/
def specCBTrackedStatus (c : Nat) : Prop :=
  c = 408 ∨ c = 429 ∨ c = 500 ∨ c = 501 ∨ c = 502 ∨ c = 503 ∨ c = 504 ∨
  c = 505 ∨ c = 506 ∨ c = 507 ∨ c = 508 ∨ c = 510 ∨ c = 511

instance (c : Nat) : Decidable (specCBTrackedStatus c) := by
  unfold specCBTrackedStatus
  infer_instance

/-- The method string http.MethodOptions. -/
def methodOptions : String := "OPTIONS"

/-- The method string http.MethodTrace. -/
def methodTrace : String := "TRACE"

/-- Claim wording: a side-effect-free (safe) HTTP method, per the standard
request-method semantics the claim appeals to. -/
def specSafeMethod (m : String) : Prop :=
  m = methodGet ∨ m = methodHead ∨ m = methodOptions ∨ m = methodTrace

instance (m : String) : Decidable (specSafeMethod m) := by
  unfold specSafeMethod
  infer_instance

/-! ## Supporting lemmas -/

/-- The (response, error) pair the base executor produces for its i-th call. -/
def baseOutcome (oracle : Nat → ClientDoOutcome) (i : Nat) : Option Resp × Option GoError :=
  match oracle i with
  | .ok r => (some r, none)
  | .fail e => (none, some (classifyBaseErr e))

/-- Running retries over the base executor from an empty event log. -/
def runRetries (maxA : Nat) (oracle : Nat → ClientDoOutcome) (req : Request) :
    (Option Resp × Option GoError) × Events :=
  retriesMiddleware maxA (baseExecutor oracle) req initEvents

/-- A (resp, innerErr) pair that the retry loop classifies as retriable:
either the inner error is timeout-classified, or the response status code is
one of the retriable codes. -/
def retriablePair (p : Option Resp × Option GoError) : Prop :=
  match p.2 with
  | some e => errIs e .errTimeout = true
  | none => ∃ r, p.1 = some r ∧ classifyStatus r.statusCode = .retriable

/-- An example URL for witness instantiations. -/
def urlA : String := "http://svc.local/items"

/-- An example GET request with no body. -/
def reqA : Request := ⟨methodGet, urlA, none⟩

/-- A HEAD request used to refute the safe-method reading of C7. -/
def reqHead : Request := ⟨methodHead, urlA, none⟩

/-- A request with a concrete two-byte body. -/
def reqWithBody : Request := ⟨methodPost, urlA, some ⟨[7, 9]⟩⟩

/-- An oracle whose first attempt yields a 500 response and whose later
attempts yield a 200 response. -/
def oracle500then200 : Nat → ClientDoOutcome := fun i =>
  if i = 0 then .ok ⟨500, 0⟩ else .ok ⟨200, 1⟩

/-- An oracle that always reports a 503 response. -/
def oracle503 : Nat → ClientDoOutcome := fun _ => .ok ⟨503, 0⟩

/-- An oracle whose every attempt fails with a url.Error whose Timeout() is
true, i.e. a client-library-reported timeout. -/
def oracleTimeout : Nat → ClientDoOutcome := fun _ => .fail (.urlWrapped (.otherErr 0) true)

lemma baseExecutor_eq (oracle : Nat → ClientDoOutcome) (req : Request) (ev : Events) :
    baseExecutor oracle req ev =
      (baseOutcome oracle ev.baseReqs.length,
       { ev with baseReqs := ev.baseReqs ++ [req] }) := by
  cases h : oracle ev.baseReqs.length <;> simp [baseExecutor, baseOutcome, h]

lemma classifyStatus_eq_retriable_iff (c : Nat) :
    classifyStatus c = .retriable ↔ specRetriableStatus c := by
  unfold classifyStatus specRetriableStatus
  by_cases h1 : c ∈ nonRetriableStatusCodes
  · rw [if_pos h1]
    simp only [nonRetriableStatusCodes, List.mem_cons, List.not_mem_nil, or_false] at h1
    constructor
    · intro h
      exact absurd h (by simp)
    · intro h
      omega
  · rw [if_neg h1]
    by_cases h2 : c ∈ retriableStatusCodes
    · rw [if_pos h2]
      simp only [retriableStatusCodes, List.mem_cons, List.not_mem_nil, or_false] at h2
      constructor
      · intro _
        omega
      · intro _
        rfl
    · rw [if_neg h2]
      simp only [retriableStatusCodes, List.mem_cons, List.not_mem_nil, or_false] at h2
      constructor
      · intro h
        exact absurd h (by simp)
      · intro h
        omega

lemma runRetries_single_attempt (maxA : Nat) (hA : 1 ≤ maxA)
    (oracle : Nat → ClientDoOutcome) (r : Resp) (req : Request)
    (h0 : oracle 0 = .ok r) (hcl : classifyStatus r.statusCode ≠ .retriable) :
    (runRetries maxA oracle req).1 = (some r, none) ∧
    (runRetries maxA oracle req).2.baseReqs.length = 1 := by
  obtain ⟨m, rfl⟩ : ∃ m, maxA = m + 1 := ⟨maxA - 1, by omega⟩
  cases hc : classifyStatus r.statusCode with
  | retriable => exact absurd hc hcl
  | nonRetriable =>
      constructor <;>
        simp [runRetries, retriesMiddleware, retryLoop, baseExecutor_eq, initEvents,
          baseOutcome, h0, hc, errIs]
  | ok =>
      constructor <;>
        simp [runRetries, retriesMiddleware, retryLoop, baseExecutor_eq, initEvents,
          baseOutcome, h0, hc, errIs]

lemma retryLoop_len_mono (oracle : Nat → ClientDoOutcome) :
    ∀ (fuel : Nat) (first : Bool) (req clone : Request) (resp : Option Resp)
      (ie : Option GoError) (ev : Events),
    ev.baseReqs.length ≤
      (retryLoop (baseExecutor oracle) fuel first req clone resp ie ev).2.baseReqs.length := by
  intro fuel
  induction fuel with
  | zero =>
      intro first req clone resp ie ev
      simp [retryLoop]
  | succ n ih =>
      intro first req clone resp ie ev
      rw [retryLoop]
      simp only [baseExecutor_eq, baseOutcome]
      cases ho : oracle ev.baseReqs.length with
      | ok r =>
          simp only [ho]
          cases hc : classifyStatus r.statusCode <;> simp only [hc]
          · simp
          · by_cases hn : n = 0
            · simp [hn]
            · simp only [if_neg hn]
              exact le_trans (by simp) (ih _ _ _ _ _ _)
          · simp
      | fail e =>
          simp only [ho]
          by_cases hbe : errIs (classifyBaseErr e) .errTimeout
          · simp only [hbe]
            by_cases hn : n = 0
            · simp [hn]
            · simp only [if_neg hn, if_true]
              exact le_trans (by simp) (ih _ _ _ _ _ _)
          · simp [hbe]

lemma retryLoop_len_lower (oracle : Nat → ClientDoOutcome) :
    ∀ (fuel : Nat), 1 ≤ fuel → ∀ (first : Bool) (req clone : Request) (resp : Option Resp)
      (ie : Option GoError) (ev : Events),
    ev.baseReqs.length + 1 ≤
      (retryLoop (baseExecutor oracle) fuel first req clone resp ie ev).2.baseReqs.length := by
  intro fuel hf
  obtain ⟨n, rfl⟩ : ∃ n, fuel = n + 1 := ⟨fuel - 1, by omega⟩
  intro first req clone resp ie ev
  rw [retryLoop]
  simp only [baseExecutor_eq, baseOutcome]
  cases ho : oracle ev.baseReqs.length with
  | ok r =>
      simp only [ho]
      cases hc : classifyStatus r.statusCode <;> simp only [hc]
      · simp
      · by_cases hn : n = 0
        · simp [hn]
        · simp only [if_neg hn]
          refine le_trans ?_ (retryLoop_len_mono oracle _ _ _ _ _ _ _)
          simp
      · simp
  | fail e =>
      simp only [ho]
      by_cases hbe : errIs (classifyBaseErr e) .errTimeout
      · simp only [hbe]
        by_cases hn : n = 0
        · simp [hn]
        · simp only [if_neg hn, if_true]
          refine le_trans ?_ (retryLoop_len_mono oracle _ _ _ _ _ _ _)
          simp
      · simp [hbe]

lemma runRetries_retries_on_retriable (maxA : Nat) (hA : 2 ≤ maxA)
    (oracle : Nat → ClientDoOutcome) (req : Request)
    (h0 : (∃ r, oracle 0 = .ok r ∧ classifyStatus r.statusCode = .retriable) ∨
          (∃ e, oracle 0 = .fail e ∧ errIs (classifyBaseErr e) .errTimeout = true)) :
    2 ≤ (runRetries maxA oracle req).2.baseReqs.length := by
  obtain ⟨m, rfl⟩ : ∃ m, maxA = m + 2 := ⟨maxA - 2, by omega⟩
  unfold runRetries retriesMiddleware
  have hstep :
      2 ≤ (retryLoop (baseExecutor oracle) (m + 2) true (cloneRequest req).mutated
            (cloneRequest req).clone none none initEvents).2.baseReqs.length := by
    rw [retryLoop]
    simp only [baseExecutor_eq, baseOutcome]
    have hlen : initEvents.baseReqs.length = 0 := by simp [initEvents]
    rw [hlen]
    rcases h0 with ⟨r, ho, hc⟩ | ⟨e, ho, hbe⟩
    · simp only [ho, hc]
      rw [if_neg (by omega : ¬ (m + 1 = 0))]
      refine le_trans ?_ (retryLoop_len_lower oracle (m + 1) (by omega) _ _ _ _ _ _)
      simp [initEvents]
    · simp only [ho, hbe, if_true]
      rw [if_neg (by omega : ¬ (m + 1 = 0))]
      refine le_trans ?_ (retryLoop_len_lower oracle (m + 1) (by omega) _ _ _ _ _ _)
      simp [initEvents]
  rcases hrun : retryLoop (baseExecutor oracle) (m + 2) true (cloneRequest req).mutated
      (cloneRequest req).clone none none initEvents with ⟨⟨err, resp, innerErr⟩, ev1⟩
  rw [hrun] at hstep
  simp only [hrun]
  cases err with
  | none => simpa using hstep
  | some e =>
      by_cases hb1 : errIs e .errTimeout || errIs e .ctxDeadline
      · simpa [hb1] using hstep
      · by_cases hb2 : e = .retryImpossible ∨ e = .retryAllowed ∨ e = .attemptsExceeded
        · simpa [hb1, hb2] using hstep
        · simpa [hb1, hb2] using hstep



lemma retryLoop_all_retriable (oracle : Nat → ClientDoOutcome) :
    ∀ (n : Nat) (first : Bool) (req clone : Request) (resp : Option Resp)
      (ie : Option GoError) (ev : Events),
    (∀ i, i ≤ n → retriablePair (baseOutcome oracle (ev.baseReqs.length + i))) →
    (retryLoop (baseExecutor oracle) (n + 1) first req clone resp ie ev).1 =
      (some .attemptsExceeded, baseOutcome oracle (ev.baseReqs.length + n)) ∧
    (retryLoop (baseExecutor oracle) (n + 1) first req clone resp ie ev).2.baseReqs.length =
      ev.baseReqs.length + n + 1 := by
  intro n
  induction n with
  | zero =>
      intro first req clone resp ie ev hall
      have h0 := hall 0 (by omega)
      rw [Nat.add_zero] at h0
      rw [retryLoop]
      simp only [baseExecutor_eq]
      cases ho : oracle ev.baseReqs.length with
      | ok r =>
          have hc : classifyStatus r.statusCode = .retriable := by
            simp only [baseOutcome, ho, retriablePair] at h0
            obtain ⟨r2, hr2, hc2⟩ := h0
            cases hr2
            exact hc2
          simp [baseOutcome, ho, hc]
      | fail e =>
          have hbe : errIs (classifyBaseErr e) .errTimeout = true := by
            simpa only [baseOutcome, ho, retriablePair] using h0
          simp [baseOutcome, ho, hbe]
  | succ n ih =>
      intro first req clone resp ie ev hall
      have h0 := hall 0 (by omega)
      rw [Nat.add_zero] at h0
      rw [retryLoop]
      simp only [baseExecutor_eq]
      cases ho : oracle ev.baseReqs.length with
      | ok r =>
          have hc : classifyStatus r.statusCode = .retriable := by
            simp only [baseOutcome, ho, retriablePair] at h0
            obtain ⟨r2, hr2, hc2⟩ := h0
            cases hr2
            exact hc2
          simp only [baseOutcome, ho, hc]
          rw [if_neg (by omega : ¬ (n + 1 = 0))]
          have ih2 := ih false
            (if first then (req, clone) else
              ((cloneRequest clone).mutated, (cloneRequest clone).clone)).1
            (if first then (req, clone) else
              ((cloneRequest clone).mutated, (cloneRequest clone).clone)).2
            (some r) none
            { ev with
                retryRetriable := ev.retryRetriable ++ [r.statusCode],
                baseReqs := ev.baseReqs ++
                  [(if first then (req, clone) else
                    ((cloneRequest clone).mutated, (cloneRequest clone).clone)).1] }
            (by
              intro i hi
              simp only [List.length_append, List.length_singleton]
              have := hall (i + 1) (by omega)
              rw [show ev.baseReqs.length + 1 + i = ev.baseReqs.length + (i + 1) from by omega]
              exact this)
          simp only [List.length_append, List.length_singleton] at ih2
          rw [show ev.baseReqs.length + 1 + n = ev.baseReqs.length + (n + 1) from by omega] at ih2
          constructor
          · exact (by simpa using ih2.1)
          · have h2 := ih2.2
            omega
      | fail e =>
          have hbe : errIs (classifyBaseErr e) .errTimeout = true := by
            simpa only [baseOutcome, ho, retriablePair] using h0
          simp only [baseOutcome, ho, hbe, if_true]
          rw [if_neg (by omega : ¬ (n + 1 = 0))]
          have ih2 := ih false
            (if first then (req, clone) else
              ((cloneRequest clone).mutated, (cloneRequest clone).clone)).1
            (if first then (req, clone) else
              ((cloneRequest clone).mutated, (cloneRequest clone).clone)).2
            none (some (classifyBaseErr e))
            { ev with
                retryRetriable := ev.retryRetriable ++ [666],
                baseReqs := ev.baseReqs ++
                  [(if first then (req, clone) else
                    ((cloneRequest clone).mutated, (cloneRequest clone).clone)).1] }
            (by
              intro i hi
              simp only [List.length_append, List.length_singleton]
              have := hall (i + 1) (by omega)
              rw [show ev.baseReqs.length + 1 + i = ev.baseReqs.length + (i + 1) from by omega]
              exact this)
          simp only [List.length_append, List.length_singleton] at ih2
          rw [show ev.baseReqs.length + 1 + n = ev.baseReqs.length + (n + 1) from by omega] at ih2
          constructor
          · exact (by simpa using ih2.1)
          · have h2 := ih2.2
            omega

lemma retryLoop_invariants (oracle : Nat → ClientDoOutcome) :
    ∀ (fuel : Nat) (first : Bool) (req clone : Request) (resp : Option Resp)
      (ie : Option GoError) (ev : Events),
    (ie ≠ none → resp = none) →
    (((retryLoop (baseExecutor oracle) fuel first req clone resp ie ev).1.2.2 ≠ none →
      (retryLoop (baseExecutor oracle) fuel first req clone resp ie ev).1.2.1 = none) ∧
     (∀ e0, (retryLoop (baseExecutor oracle) fuel first req clone resp ie ev).1.1 = some e0 →
        e0 ≠ .retryImpossible → e0 ≠ .retryAllowed → e0 ≠ .attemptsExceeded →
        (retryLoop (baseExecutor oracle) fuel first req clone resp ie ev).1.2.2 = some e0)) := by
  intro fuel
  induction fuel with
  | zero =>
      intro first req clone resp ie ev h
      constructor
      · simpa [retryLoop] using h
      · intro e0 he0
        simp [retryLoop] at he0
        intro _ _ habs
        exact absurd he0.symm habs
  | succ n ih =>
      intro first req clone resp ie ev h
      rw [retryLoop]
      simp only [baseExecutor_eq]
      cases ho : oracle ev.baseReqs.length with
      | ok r =>
          simp only [baseOutcome, ho]
          cases hc : classifyStatus r.statusCode <;> simp only [hc]
          · constructor
            · simp
            · intro e0 he0
              simp at he0
              intro habs _ _
              exact absurd he0.symm habs
          · by_cases hn : n = 0
            · subst hn
              constructor
              · simp
              · intro e0 he0
                simp at he0
                intro _ _ habs
                exact absurd he0.symm habs
            · rw [if_neg hn]
              exact ih _ _ _ _ _ _ (by simp)
          · constructor
            · simp
            · intro e0 he0
              simp at he0
      | fail e =>
          simp only [baseOutcome, ho]
          by_cases hbe : errIs (classifyBaseErr e) .errTimeout
          · simp only [hbe, if_true]
            by_cases hn : n = 0
            · subst hn
              constructor
              · simp
              · intro e0 he0
                simp at he0
                intro _ _ habs
                exact absurd he0.symm habs
            · rw [if_neg hn]
              exact ih _ _ _ _ _ _ (by simp)
          · simp only [hbe]
            constructor
            · simp
            · intro e0 he0
              simp at he0
              intro _ _ _
              simp [he0]

lemma cloneRequest_body_eq (req : Request) (b : Body) (h : req.body = some b) :
    (cloneRequest req).origBodyAfter = some ⟨[]⟩ ∧
    (cloneRequest req).mutated.body = some ⟨b.data⟩ ∧
    (cloneRequest req).clone.body = some ⟨b.data⟩ := by
  simp [cloneRequest, h]

lemma retryLoop_body_invariant (oracle : Nat → ClientDoOutcome) (bs : List Nat) :
    ∀ (fuel : Nat) (first : Bool) (req clone : Request) (resp : Option Resp)
      (ie : Option GoError) (ev : Events),
    req.body = some ⟨bs⟩ → clone.body = some ⟨bs⟩ →
    ∀ q, q ∈ (retryLoop (baseExecutor oracle) fuel first req clone resp ie ev).2.baseReqs →
      q ∈ ev.baseReqs ∨ q.body = some ⟨bs⟩ := by
  intro fuel
  induction fuel with
  | zero =>
      intro first req clone resp ie ev _ _ q hq
      rw [retryLoop] at hq
      exact Or.inl hq
  | succ n ih =>
      intro first req clone resp ie ev hreq hclone q hq
      rw [retryLoop] at hq
      simp only [baseExecutor_eq] at hq
      have hnext1 :
          (if first then (req, clone) else
            ((cloneRequest clone).mutated, (cloneRequest clone).clone)).1.body = some ⟨bs⟩ := by
        cases first
        · simpa using (cloneRequest_body_eq clone ⟨bs⟩ hclone).2.1
        · simpa using hreq
      have hnext2 :
          (if first then (req, clone) else
            ((cloneRequest clone).mutated, (cloneRequest clone).clone)).2.body = some ⟨bs⟩ := by
        cases first
        · simpa using (cloneRequest_body_eq clone ⟨bs⟩ hclone).2.2
        · simpa using hclone
      cases ho : oracle ev.baseReqs.length with
      | ok r =>
          simp only [baseOutcome, ho] at hq
          cases hc : classifyStatus r.statusCode <;> rw [hc] at hq
          · simp only at hq
            rcases (by simpa using hq :
                q ∈ ev.baseReqs ∨ q = (if first then (req, clone) else
                  ((cloneRequest clone).mutated, (cloneRequest clone).clone)).1) with hmem | heq
            · exact Or.inl hmem
            · right
              rw [heq]
              exact hnext1
          · by_cases hn : n = 0
            · subst hn
              simp only [if_pos rfl] at hq
              rcases (by simpa using hq :
                  q ∈ ev.baseReqs ∨ q = (if first then (req, clone) else
                    ((cloneRequest clone).mutated, (cloneRequest clone).clone)).1) with hmem | heq
              · exact Or.inl hmem
              · right
                rw [heq]
                exact hnext1
            · rw [if_neg hn] at hq
              rcases ih false _ _ (some r) none _ hnext1 hnext2 q hq with hmem | hmem
              · rcases (by simpa using hmem :
                    q ∈ ev.baseReqs ∨ q = (if first then (req, clone) else
                      ((cloneRequest clone).mutated, (cloneRequest clone).clone)).1) with
                  hmem2 | heq2
                · exact Or.inl hmem2
                · right
                  rw [heq2]
                  exact hnext1
              · exact Or.inr hmem
          · simp only at hq
            rcases (by simpa using hq :
                q ∈ ev.baseReqs ∨ q = (if first then (req, clone) else
                  ((cloneRequest clone).mutated, (cloneRequest clone).clone)).1) with hmem | heq
            · exact Or.inl hmem
            · right
              rw [heq]
              exact hnext1
      | fail e =>
          simp only [baseOutcome, ho] at hq
          by_cases hbe : errIs (classifyBaseErr e) .errTimeout
          · rw [if_pos hbe] at hq
            by_cases hn : n = 0
            · subst hn
              simp only [if_pos rfl] at hq
              rcases (by simpa using hq :
                  q ∈ ev.baseReqs ∨ q = (if first then (req, clone) else
                    ((cloneRequest clone).mutated, (cloneRequest clone).clone)).1) with hmem | heq
              · exact Or.inl hmem
              · right
                rw [heq]
                exact hnext1
            · rw [if_neg hn] at hq
              rcases ih false _ _ none (some (classifyBaseErr e)) _ hnext1 hnext2 q hq with
                hmem | hmem
              · rcases (by simpa using hmem :
                    q ∈ ev.baseReqs ∨ q = (if first then (req, clone) else
                      ((cloneRequest clone).mutated, (cloneRequest clone).clone)).1) with
                  hmem2 | heq2
                · exact Or.inl hmem2
                · right
                  rw [heq2]
                  exact hnext1
              · exact Or.inr hmem
          · rw [if_neg hbe] at hq
            rcases (by simpa using hq :
                q ∈ ev.baseReqs ∨ q = (if first then (req, clone) else
                  ((cloneRequest clone).mutated, (cloneRequest clone).clone)).1) with hmem | heq
            · exact Or.inl hmem
            · right
              rw [heq]
              exact hnext1

lemma runRetries_first_success_trace (maxA : Nat) (hA : 1 ≤ maxA)
    (oracle : Nat → ClientDoOutcome) (r : Resp) (req : Request)
    (h0 : oracle 0 = .ok r) (hok : classifyStatus r.statusCode = .ok) :
    (runRetries maxA oracle req).2.baseReqs = [(cloneRequest req).mutated] := by
  obtain ⟨m, rfl⟩ : ∃ m, maxA = m + 1 := ⟨maxA - 1, by omega⟩
  simp [runRetries, retriesMiddleware, retryLoop, baseExecutor_eq, initEvents, baseOutcome,
    h0, hok]

/-! ## Claim theorems -/







/-- C1: Retry eligibility policy of the retry layer.  Given the first attempt's
outcome: a status code in the retriable set 408/500/503/504 (or a
timeout-classified error) makes the layer retry (a second base call happens
when attempts remain); a status code in the claimed non-retriable set leads to
exactly one attempt with that response returned unchanged and a nil error; and
any other status code (2xx/3xx or unlisted) also stops after exactly one
attempt with the response returned as success. -/
theorem retryEligibilityPolicy (maxA : Nat) (hA : 2 ≤ maxA)
    (oracle : Nat → ClientDoOutcome) (req : Request) :
    (∀ r, oracle 0 = .ok r → specRetriableStatus r.statusCode →
        2 ≤ (runRetries maxA oracle req).2.baseReqs.length) ∧
    (∀ e, oracle 0 = .fail e → errIs (classifyBaseErr e) .errTimeout = true →
        2 ≤ (runRetries maxA oracle req).2.baseReqs.length) ∧
    (∀ r, oracle 0 = .ok r → specNonRetriableStatus r.statusCode →
        (runRetries maxA oracle req).1 = (some r, none) ∧
        (runRetries maxA oracle req).2.baseReqs.length = 1) ∧
    (∀ r, oracle 0 = .ok r → ¬ specRetriableStatus r.statusCode →
        ¬ specNonRetriableStatus r.statusCode →
        (runRetries maxA oracle req).1 = (some r, none) ∧
        (runRetries maxA oracle req).2.baseReqs.length = 1) := by
  refine ⟨?_, ?_, ?_, ?_⟩
  · intro r h0 hs
    exact runRetries_retries_on_retriable maxA hA oracle req
      (Or.inl ⟨r, h0, (classifyStatus_eq_retriable_iff _).2 hs⟩)
  · intro e h0 ht
    exact runRetries_retries_on_retriable maxA hA oracle req (Or.inr ⟨e, h0, ht⟩)
  · intro r h0 hs
    refine runRetries_single_attempt maxA (by omega) oracle r req h0 ?_
    intro hc
    exact hs.2 ((classifyStatus_eq_retriable_iff _).1 hc)
  · intro r h0 hs _
    refine runRetries_single_attempt maxA (by omega) oracle r req h0 ?_
    intro hc
    exact hs ((classifyStatus_eq_retriable_iff _).1 hc)

/-- Witness for C1 at a concrete configuration and oracle. -/
theorem retryEligibilityPolicy_witness :
    (∀ r, oracle500then200 0 = .ok r → specRetriableStatus r.statusCode →
        2 ≤ (runRetries 3 oracle500then200 reqA).2.baseReqs.length) ∧
    (∀ e, oracle500then200 0 = .fail e → errIs (classifyBaseErr e) .errTimeout = true →
        2 ≤ (runRetries 3 oracle500then200 reqA).2.baseReqs.length) ∧
    (∀ r, oracle500then200 0 = .ok r → specNonRetriableStatus r.statusCode →
        (runRetries 3 oracle500then200 reqA).1 = (some r, none) ∧
        (runRetries 3 oracle500then200 reqA).2.baseReqs.length = 1) ∧
    (∀ r, oracle500then200 0 = .ok r → ¬ specRetriableStatus r.statusCode →
        ¬ specNonRetriableStatus r.statusCode →
        (runRetries 3 oracle500then200 reqA).1 = (some r, none) ∧
        (runRetries 3 oracle500then200 reqA).2.baseReqs.length = 1) :=
  retryEligibilityPolicy 3 (by decide) oracle500then200 reqA

/-- C9: Retry exhaustion.  When every one of the maxAttempts attempts produces
a retriable outcome, the retry layer returns the last attempt's
(response, error) pair unchanged, has issued exactly maxAttempts base calls,
and surfaces no synthetic attempts-exceeded error. -/
theorem retryExhaustionReturnsLastPair (maxA : Nat) (hA : 1 ≤ maxA)
    (oracle : Nat → ClientDoOutcome) (req : Request)
    (hall : ∀ i, i < maxA → retriablePair (baseOutcome oracle i)) :
    (runRetries maxA oracle req).1 = baseOutcome oracle (maxA - 1) ∧
    (runRetries maxA oracle req).2.baseReqs.length = maxA ∧
    (runRetries maxA oracle req).1.2 ≠ some .attemptsExceeded := by
  obtain ⟨m, rfl⟩ : ∃ m, maxA = m + 1 := ⟨maxA - 1, by omega⟩
  have hloop := retryLoop_all_retriable oracle m true (cloneRequest req).mutated
    (cloneRequest req).clone none none initEvents
    (by
      intro i hi
      simpa [initEvents] using hall i (by omega))
  have hlen0 : initEvents.baseReqs.length = 0 := by simp [initEvents]
  rw [hlen0] at hloop
  rw [Nat.zero_add] at hloop
  have hres :
      (runRetries (m + 1) oracle req).1 = baseOutcome oracle m ∧
      (runRetries (m + 1) oracle req).2.baseReqs.length = m + 1 := by
    unfold runRetries retriesMiddleware
    rcases hrun : retryLoop (baseExecutor oracle) (m + 1) true (cloneRequest req).mutated
        (cloneRequest req).clone none none initEvents with ⟨⟨err, resp, innerErr⟩, ev1⟩
    rw [hrun] at hloop
    simp only at hloop
    obtain ⟨hpair, hlen⟩ := hloop
    have herr : err = some .attemptsExceeded := congrArg Prod.fst hpair
    have hrest : (resp, innerErr) = baseOutcome oracle m := congrArg Prod.snd hpair
    simp only [hrun]
    rw [herr]
    simp only [errIs]
    constructor
    · simpa using hrest
    · simpa using hlen
  refine ⟨by simpa using hres.1, by simpa using hres.2, ?_⟩
  rw [hres.1]
  have := hall m (by omega)
  unfold retriablePair at this
  cases hb : (baseOutcome oracle m).2 with
  | none => simp [hb]
  | some e =>
      rw [hb] at this
      simp only at this
      intro hcontra
      have he : e = .attemptsExceeded := by
        injection hcontra
      rw [he] at this
      simp [errIs] at this

/-- C6: Timeout result suppression.  Whenever the retry layer (wrapping the
base executor) returns a timeout-classified error - an error matching
ErrTimeout or context.DeadlineExceeded - the response it returns is nil, so a
caller never sees a response together with such an error. -/
theorem timeoutReturnsNilResponse (maxA : Nat) (oracle : Nat → ClientDoOutcome)
    (req : Request) (e : GoError)
    (herr : (runRetries maxA oracle req).1.2 = some e)
    (htime : errIs e .errTimeout = true ∨ errIs e .ctxDeadline = true) :
    (runRetries maxA oracle req).1.1 = none := by
  have hinv := retryLoop_invariants oracle maxA true (cloneRequest req).mutated
    (cloneRequest req).clone none none initEvents (by simp)
  unfold runRetries retriesMiddleware at herr ⊢
  rcases hrun : retryLoop (baseExecutor oracle) maxA true (cloneRequest req).mutated
      (cloneRequest req).clone none none initEvents with ⟨⟨err, resp, innerErr⟩, ev1⟩
  rw [hrun] at hinv
  simp only at hinv
  simp only [hrun] at herr ⊢
  cases err with
  | none => simp at herr
  | some e0 =>
      dsimp only at herr ⊢
      by_cases hb1 : (errIs e0 .errTimeout || errIs e0 .ctxDeadline) = true
      · rw [if_pos hb1]
      · rw [if_neg hb1] at herr ⊢
        by_cases hb2 : e0 = .retryImpossible ∨ e0 = .retryAllowed ∨ e0 = .attemptsExceeded
        · rw [if_pos hb2] at herr ⊢
          simp only at herr ⊢
          exact hinv.1 (by rw [herr]; simp)
        · rw [if_neg hb2] at herr ⊢
          simp only at herr ⊢
          have he0 : e0 = e := by injection herr
          subst he0
          have : (errIs e0 .errTimeout || errIs e0 .ctxDeadline) = true := by
            rcases htime with h | h <;> simp [h]
          exact absurd this hb1



/-- Witness for C6 at a concrete oracle that always times out. -/
theorem timeoutReturnsNilResponse_witness :
    (runRetries 3 oracleTimeout reqA).1.1 = none :=
  timeoutReturnsNilResponse 3 oracleTimeout reqA .timeoutWrap (by decide) (by decide)

/-- C10: Body buffering frame effect.  When the retry layer is configured and
the incoming request has a body, the caller's body stream is drained into an
in-memory buffer and the request's body is replaced before the first attempt -
also when the first attempt succeeds with no retry, in which case the only
request handed to the base executor is the mutated original - and the request
of every attempt carries an independent reader over the same buffered bytes. -/
theorem retriesBodyBuffering (maxA : Nat) (hA : 1 ≤ maxA)
    (oracle : Nat → ClientDoOutcome) (req : Request) (bs : List Nat)
    (hb : req.body = some ⟨bs⟩) :
    (cloneRequest req).origBodyAfter = some ⟨[]⟩ ∧
    (cloneRequest req).mutated.body = some ⟨bs⟩ ∧
    (cloneRequest req).clone.body = some ⟨bs⟩ ∧
    (∀ r, oracle 0 = .ok r → classifyStatus r.statusCode = .ok →
        (runRetries maxA oracle req).2.baseReqs = [(cloneRequest req).mutated]) ∧
    (∀ q, q ∈ (runRetries maxA oracle req).2.baseReqs → q.body = some ⟨bs⟩) := by
  obtain ⟨hdrain, hmut, hclone⟩ := cloneRequest_body_eq req ⟨bs⟩ hb
  refine ⟨hdrain, hmut, hclone, ?_, ?_⟩
  · intro r h0 hok
    exact runRetries_first_success_trace maxA hA oracle r req h0 hok
  · intro q hq
    have hloop := retryLoop_body_invariant oracle bs maxA true (cloneRequest req).mutated
      (cloneRequest req).clone none none initEvents hmut hclone q
    have hqloop : q ∈ (retryLoop (baseExecutor oracle) maxA true (cloneRequest req).mutated
        (cloneRequest req).clone none none initEvents).2.baseReqs := by
      unfold runRetries retriesMiddleware at hq
      rcases hrun : retryLoop (baseExecutor oracle) maxA true (cloneRequest req).mutated
          (cloneRequest req).clone none none initEvents with ⟨⟨err, resp, innerErr⟩, ev1⟩
      simp only [hrun] at hq ⊢
      cases err with
      | none => simpa using hq
      | some e0 =>
          dsimp only at hq ⊢
          by_cases hb1 : (errIs e0 .errTimeout || errIs e0 .ctxDeadline) = true
          · rw [if_pos hb1] at hq
            simpa using hq
          · rw [if_neg hb1] at hq
            by_cases hb2 : e0 = .retryImpossible ∨ e0 = .retryAllowed ∨ e0 = .attemptsExceeded
            · rw [if_pos hb2] at hq
              simpa using hq
            · rw [if_neg hb2] at hq
              simpa using hq
    rcases hloop hqloop with hmem | hbody
    · simp [initEvents] at hmem
    · exact hbody



/-- Witness for C10 at a concrete request with a body. -/
theorem retriesBodyBuffering_witness :
    (cloneRequest reqWithBody).origBodyAfter = some ⟨[]⟩ ∧
    (cloneRequest reqWithBody).mutated.body = some ⟨[7, 9]⟩ ∧
    (cloneRequest reqWithBody).clone.body = some ⟨[7, 9]⟩ ∧
    (∀ r, oracle500then200 0 = .ok r → classifyStatus r.statusCode = .ok →
        (runRetries 3 oracle500then200 reqWithBody).2.baseReqs =
          [(cloneRequest reqWithBody).mutated]) ∧
    (∀ q, q ∈ (runRetries 3 oracle500then200 reqWithBody).2.baseReqs →
        q.body = some ⟨[7, 9]⟩) :=
  retriesBodyBuffering 3 (by decide) oracle500then200 reqWithBody [7, 9] (by decide)



/-- Witness for C9 at a concrete configuration and oracle. -/
theorem retryExhaustionReturnsLastPair_witness :
    (runRetries 3 oracle503 reqA).1 = baseOutcome oracle503 2 ∧
    (runRetries 3 oracle503 reqA).2.baseReqs.length = 3 ∧
    (runRetries 3 oracle503 reqA).1.2 ≠ some .attemptsExceeded :=
  retryExhaustionReturnsLastPair 3 (by decide) oracle503 reqA
    (by
      intro i _
      simp [retriablePair, baseOutcome, oracle503, classifyStatus,
        nonRetriableStatusCodes, retriableStatusCodes])

/-- C3: Circuit-breaker outcome classification.  The status codes tracked by
the breaker are exactly the claimed set 408, 429, 500-508, 510, 511 (without
509), and for a wrapped layer returning a response with a nil error the breaker
middleware returns that response unchanged with a nil error - reporting the
code through CBTrackedStatusCode exactly when it is in the tracked set. -/
theorem cbOutcomeClassification :
    (∀ c, c ∈ cbTrackedStatusCodes ↔ specCBTrackedStatus c) ∧
    (∀ (inner : Layer) (req : Request) (ev ev1 : Events) (r : Resp),
      inner req ev = ((some r, none), ev1) →
      (specCBTrackedStatus r.statusCode →
        cbMiddleware .run inner req ev =
          ((some r, none), { ev1 with cbTracked := ev1.cbTracked ++ [r.statusCode] })) ∧
      (¬ specCBTrackedStatus r.statusCode →
        cbMiddleware .run inner req ev = ((some r, none), ev1))) := by
  have hiff : ∀ c, c ∈ cbTrackedStatusCodes ↔ specCBTrackedStatus c := by
    intro c
    simp [cbTrackedStatusCodes, specCBTrackedStatus]
  refine ⟨hiff, ?_⟩
  intro inner req ev ev1 r hinner
  constructor
  · intro hs
    simp [cbMiddleware, hinner, outErrorBasedOnResponseCode, (hiff _).2 hs]
  · intro hs
    have hnot : r.statusCode ∉ cbTrackedStatusCodes := fun hmem => hs ((hiff _).1 hmem)
    simp [cbMiddleware, hinner, outErrorBasedOnResponseCode, hnot]

/-- Witness for C3: a wrapped layer returning a 503 response has it tracked and
still receives the response back with a nil error. -/
theorem cbOutcomeClassification_witness :
    cbMiddleware .run (fun _ e => ((some ⟨503, 0⟩, none), e)) reqA initEvents =
      ((some ⟨503, 0⟩, none), { initEvents with cbTracked := [503] }) := by
  have h := (cbOutcomeClassification.2 (fun _ e => ((some (⟨503, 0⟩ : Resp), none), e))
    reqA initEvents initEvents ⟨503, 0⟩ rfl).1 (by decide)
  simpa [initEvents] using h

/-- C5: the error-percent threshold boundary.  Evaluating getErrorPercent at
the claimed floor value 50 shows the source rejects the floor itself (strict
comparison with minErrorThreshold) and falls back to the default 80 with an
initialization warning, while 51 is accepted and the missing value 0 falls
back as claimed. -/
theorem errorPercentFloorBoundary :
    getErrorPercent ⟨50, 10⟩ initEvents =
      (80, { initEvents with warnings := [WarnEvent.cbErrorThreshold] }) ∧
    getErrorPercent ⟨51, 10⟩ initEvents = (51, initEvents) ∧
    getErrorPercent ⟨0, 10⟩ initEvents =
      (80, { initEvents with warnings := [WarnEvent.cbErrorThreshold] }) := by
  refine ⟨?_, ?_, ?_⟩ <;> decide



/-- C7 counterexample: HEAD is a side-effect-free (safe) method, so the claim
as stated predicts the singleflight layer is applied to a HEAD request with no
custom key generator; the source bypasses it - no key is recorded and no
coalescing group is entered. -/
theorem sfSafeMethodCounterexample :
    ¬ (sfBypass ⟨none⟩ reqHead = false ↔
        ((⟨none⟩ : SFCfg).keyGenerator.isSome ∨ specSafeMethod reqHead.method)) ∧
    sfBypass ⟨none⟩ reqHead = true ∧
    (sfMiddleware ⟨none⟩ (baseExecutor oracle500then200) reqHead initEvents).2.sfKeys = [] ∧
    (sfMiddleware ⟨none⟩ (baseExecutor oracle500then200) reqHead initEvents).2.sfRuns = 0 := by
  refine ⟨?_, by decide, by decide, by decide⟩
  intro h
  have happ := h.2 (Or.inr (by simp [reqHead, specSafeMethod, methodHead]))
  simp [sfBypass, reqHead, methodHead, methodGet] at happ

/-- C7 (amended): the singleflight layer is applied iff a custom key generator
is supplied or the method is exactly GET (but not every safe method), and with
no custom generator the deduplication key is method, the two-pipe separator,
then the full URL; on the bypass path the middleware is a pass-through, and on
the applied path the computed key is recorded and the group runs once. -/
theorem sfApplicabilityAndKey (cfg : SFCfg) (req : Request) :
    (sfBypass cfg req = false ↔ (cfg.keyGenerator.isSome ∨ req.method = methodGet)) ∧
    (cfg.keyGenerator = none →
      actualKeyGenerator cfg req = req.method ++ sfKeySep ++ req.url) ∧
    (∀ (inner : Layer) (ev : Events),
      (sfBypass cfg req = true → sfMiddleware cfg inner req ev = inner req ev) ∧
      ((∀ q e, ((inner q e).2).sfKeys = e.sfKeys ∧ ((inner q e).2).sfRuns = e.sfRuns) →
        sfBypass cfg req = false →
        (sfMiddleware cfg inner req ev).2.sfKeys = ev.sfKeys ++ [actualKeyGenerator cfg req] ∧
        (sfMiddleware cfg inner req ev).2.sfRuns = ev.sfRuns + 1)) := by
  refine ⟨?_, ?_, ?_⟩
  · cases hk : cfg.keyGenerator with
    | none =>
        by_cases hm : req.method = methodGet <;> simp [sfBypass, hk, hm]
    | some g => simp [sfBypass, hk]
  · intro h
    simp [actualKeyGenerator, h, DefaultSFKeyGenerator]
  · intro inner ev
    constructor
    · intro hb
      simp [sfMiddleware, hb]
    · intro hinner hb
      rcases hstep : inner req
          { ev with sfKeys := ev.sfKeys ++ [actualKeyGenerator cfg req],
                    sfRuns := ev.sfRuns + 1 } with ⟨⟨r1, e1⟩, ev2⟩
      have hkeys := hinner req
        { ev with sfKeys := ev.sfKeys ++ [actualKeyGenerator cfg req],
                  sfRuns := ev.sfRuns + 1 }
      rw [hstep] at hkeys
      simp only at hkeys
      cases r1 with
      | none =>
          constructor <;> simp [sfMiddleware, hb, hstep, hkeys.1, hkeys.2]
      | some r =>
          constructor <;> simp [sfMiddleware, hb, hstep, hkeys.1, hkeys.2]

/-- Witness for the amended C7 at a concrete GET request and default key
generator. -/
theorem sfApplicabilityAndKey_witness :
    (sfBypass ⟨none⟩ reqA = false ↔
      ((⟨none⟩ : SFCfg).keyGenerator.isSome ∨ reqA.method = methodGet)) ∧
    ((⟨none⟩ : SFCfg).keyGenerator = none →
      actualKeyGenerator ⟨none⟩ reqA = reqA.method ++ sfKeySep ++ reqA.url) ∧
    (∀ (inner : Layer) (ev : Events),
      (sfBypass ⟨none⟩ reqA = true → sfMiddleware ⟨none⟩ inner reqA ev = inner reqA ev) ∧
      ((∀ q e, ((inner q e).2).sfKeys = e.sfKeys ∧ ((inner q e).2).sfRuns = e.sfRuns) →
        sfBypass ⟨none⟩ reqA = false →
        (sfMiddleware ⟨none⟩ inner reqA ev).2.sfKeys =
          ev.sfKeys ++ [actualKeyGenerator ⟨none⟩ reqA] ∧
        (sfMiddleware ⟨none⟩ inner reqA ev).2.sfRuns = ev.sfRuns + 1)) :=
  sfApplicabilityAndKey ⟨none⟩ reqA

lemma cbTracked_subset (c : Nat) (h : c ∈ cbTrackedStatusCodes) :
    c ∈ nonRetriableStatusCodes ∨ c ∈ retriableStatusCodes := by
  simp only [cbTrackedStatusCodes, List.mem_cons, List.not_mem_nil, or_false] at h
  simp only [nonRetriableStatusCodes, retriableStatusCodes, List.mem_cons,
    List.not_mem_nil, or_false]
  omega

lemma classifyStatus_ok_not_tracked (c : Nat) (h : classifyStatus c = .ok) :
    c ∉ cbTrackedStatusCodes := by
  intro hmem
  rcases cbTracked_subset c hmem with h1 | h1
  · simp [classifyStatus, h1] at h
  · by_cases h2 : c ∈ nonRetriableStatusCodes
    · simp [classifyStatus, h2] at h
    · simp [classifyStatus, h2, h1] at h

lemma retriesMiddleware_retriable_then_success (maxA : Nat) (hA : 2 ≤ maxA)
    (oracle : Nat → ClientDoOutcome) (r1 r2 : Resp) (req : Request) (ev : Events)
    (hev : ev.baseReqs = [])
    (h0 : oracle 0 = .ok r1) (hc1 : classifyStatus r1.statusCode = .retriable)
    (h1 : oracle 1 = .ok r2) (hc2 : classifyStatus r2.statusCode = .ok) :
    (retriesMiddleware maxA (baseExecutor oracle) req ev).1 = (some r2, none) ∧
    (retriesMiddleware maxA (baseExecutor oracle) req ev).2.baseReqs.length = 2 ∧
    (retriesMiddleware maxA (baseExecutor oracle) req ev).2.cbTracked = ev.cbTracked ∧
    (retriesMiddleware maxA (baseExecutor oracle) req ev).2.sfKeys = ev.sfKeys ∧
    (retriesMiddleware maxA (baseExecutor oracle) req ev).2.sfRuns = ev.sfRuns := by
  obtain ⟨m, rfl⟩ : ∃ m, maxA = m + 2 := ⟨maxA - 2, by omega⟩
  refine ⟨?_, ?_, ?_, ?_, ?_⟩ <;>
    simp [retriesMiddleware, retryLoop, baseExecutor_eq, baseOutcome, hev, h0, h1, hc1, hc2]

/-- C2: Layer optionality and composition order.  A nil Retries, CircuitBreaker
or Singleflight configuration makes the corresponding addMiddleware a
pass-through; Client.Do composes singleflight outside the circuit breaker
outside retries outside the base executor; because retries run inside the
breaker, a retriable failure followed by a success within one call leaves the
breaker's tracked-failure log empty while two base attempts were issued. -/
theorem layerOptionalityAndOrder :
    (∀ (inner : Layer) (req : Request) (ev : Events),
      retriesAddMiddleware none inner req ev = inner req ev) ∧
    (∀ (ctl : HystrixControl) (inner : Layer) (req : Request) (ev : Events),
      cbAddMiddleware none ctl inner req ev = inner req ev) ∧
    (∀ (inner : Layer) (req : Request) (ev : Events),
      sfAddMiddleware none inner req ev = inner req ev) ∧
    (∀ (cfg : ClientCfg) (ctl : HystrixControl) (oracle : Nat → ClientDoOutcome)
      (req : Request) (ev : Events),
      clientDo cfg ctl oracle req ev =
        sfAddMiddleware cfg.singleflight
          (cbAddMiddleware (some cfg.circuitBreaker) ctl
            (retriesAddMiddleware cfg.retries (baseExecutor oracle))) req ev) ∧
    (∀ (cfg : ClientCfg) (oracle : Nat → ClientDoOutcome) (req : Request)
      (maxA : Nat) (r1 r2 : Resp),
      cfg.retries = some ⟨maxA⟩ → cfg.singleflight = none → 2 ≤ maxA →
      oracle 0 = .ok r1 → classifyStatus r1.statusCode = .retriable →
      oracle 1 = .ok r2 → classifyStatus r2.statusCode = .ok →
      (clientDo cfg .run oracle req initEvents).1 = (some r2, none) ∧
      (clientDo cfg .run oracle req initEvents).2.cbTracked = [] ∧
      (clientDo cfg .run oracle req initEvents).2.baseReqs.length = 2) := by
  refine ⟨fun _ _ _ => rfl, fun _ _ _ _ => rfl, fun _ _ _ => rfl, fun _ _ _ _ _ => rfl, ?_⟩
  intro cfg oracle req maxA r1 r2 hr hsf hA h0 hc1 h1 hc2
  have hret := retriesMiddleware_retriable_then_success maxA hA oracle r1 r2 req initEvents
    (by simp [initEvents]) h0 hc1 h1 hc2
  have hnot := classifyStatus_ok_not_tracked r2.statusCode hc2
  rcases hstep : retriesMiddleware maxA (baseExecutor oracle) req initEvents with
    ⟨⟨rr, ee⟩, ev2⟩
  rw [hstep] at hret
  simp only at hret
  obtain ⟨hpair, hlen, hcb, _, _⟩ := hret
  rw [Prod.mk.injEq] at hpair
  obtain ⟨hrr, hee⟩ := hpair
  subst hrr
  subst hee
  have hgoal : clientDo cfg .run oracle req initEvents =
      ((some r2, none), ev2) := by
    simp [clientDo, hr, hsf, retriesAddMiddleware, cbAddMiddleware, sfAddMiddleware,
      cbMiddleware, hstep, outErrorBasedOnResponseCode, hnot]
  rw [hgoal]
  refine ⟨rfl, ?_, by simpa using hlen⟩
  rw [hcb]
  simp [initEvents]

/-- Witness for C2: with retries of three attempts configured, no singleflight,
and an oracle answering 500 then 200, the client returns the 200, the breaker
tracked nothing, and two base attempts were issued. -/
theorem layerOptionalityAndOrder_witness :
    (clientDo ⟨some ⟨3⟩, none, ⟨0, 0⟩⟩ .run oracle500then200 reqA initEvents).1 =
      (some ⟨200, 1⟩, none) ∧
    (clientDo ⟨some ⟨3⟩, none, ⟨0, 0⟩⟩ .run oracle500then200 reqA initEvents).2.cbTracked = [] ∧
    (clientDo ⟨some ⟨3⟩, none, ⟨0, 0⟩⟩ .run oracle500then200 reqA
        initEvents).2.baseReqs.length = 2 :=
  layerOptionalityAndOrder.2.2.2.2 ⟨some ⟨3⟩, none, ⟨0, 0⟩⟩ oracle500then200 reqA 3
    ⟨500, 0⟩ ⟨200, 1⟩ rfl rfl (by decide) rfl (by decide) rfl (by decide)

/-- C8: Coalesced result sharing.  For two concurrent callers presenting the
same default coalescing key (GET requests to the same URL, no custom key
generator) while the first execution is in flight, exactly one downstream
execution runs - one base network call for a pass-through retry layer - and
both callers receive the identical (response, error) result. -/
theorem coalescedCallsShareOneExecution (cfg : ClientCfg) (oracle : Nat → ClientDoOutcome)
    (u : String) (bA bB : Option Body)
    (hr : cfg.retries = none) (hsf : cfg.singleflight = some ⟨none⟩) :
    (clientDoPair cfg .run oracle ⟨methodGet, u, bA⟩ ⟨methodGet, u, bB⟩ initEvents).1.1 =
      (clientDoPair cfg .run oracle ⟨methodGet, u, bA⟩ ⟨methodGet, u, bB⟩ initEvents).1.2 ∧
    (clientDoPair cfg .run oracle ⟨methodGet, u, bA⟩ ⟨methodGet, u, bB⟩
        initEvents).2.baseReqs.length = 1 ∧
    (clientDoPair cfg .run oracle ⟨methodGet, u, bA⟩ ⟨methodGet, u, bB⟩
        initEvents).2.sfRuns = 1 := by
  rcases h0 : oracle 0 with r | e
  · by_cases htr : r.statusCode ∈ cbTrackedStatusCodes <;>
      simp [clientDoPair, hr, hsf, retriesAddMiddleware, cbAddMiddleware, sfMiddlewarePair,
        sfBypass, actualKeyGenerator, DefaultSFKeyGenerator, sfMiddleware, cbMiddleware,
        baseExecutor_eq, baseOutcome, outErrorBasedOnResponseCode, initEvents, h0, htr]
  · simp [clientDoPair, hr, hsf, retriesAddMiddleware, cbAddMiddleware, sfMiddlewarePair,
      sfBypass, actualKeyGenerator, DefaultSFKeyGenerator, sfMiddleware, cbMiddleware,
      baseExecutor_eq, baseOutcome, initEvents, h0]

/-- Witness for C8 at a concrete URL, oracle and configuration. -/
theorem coalescedCallsShareOneExecution_witness :
    (clientDoPair ⟨none, some ⟨none⟩, ⟨0, 0⟩⟩ .run oracle500then200
        ⟨methodGet, urlA, none⟩ ⟨methodGet, urlA, none⟩ initEvents).1.1 =
      (clientDoPair ⟨none, some ⟨none⟩, ⟨0, 0⟩⟩ .run oracle500then200
        ⟨methodGet, urlA, none⟩ ⟨methodGet, urlA, none⟩ initEvents).1.2 ∧
    (clientDoPair ⟨none, some ⟨none⟩, ⟨0, 0⟩⟩ .run oracle500then200
        ⟨methodGet, urlA, none⟩ ⟨methodGet, urlA, none⟩ initEvents).2.baseReqs.length = 1 ∧
    (clientDoPair ⟨none, some ⟨none⟩, ⟨0, 0⟩⟩ .run oracle500then200
        ⟨methodGet, urlA, none⟩ ⟨methodGet, urlA, none⟩ initEvents).2.sfRuns = 1 :=
  coalescedCallsShareOneExecution ⟨none, some ⟨none⟩, ⟨0, 0⟩⟩ oracle500then200 urlA
    none none rfl rfl

/-- C4: Base executor failure classification.  A dial timeout produces exactly
the ErrConnectTimeout sentinel (which does not match ErrTimeout, and is passed
through untouched even once the client wraps it in a url.Error whose Timeout()
is false, since the sentinel is a plain error value); a non-timeout dial
failure wraps ErrConnection; a url.Error whose Timeout() reports true is
wrapped into ErrTimeout; and an error matching context deadline expiry or
cancellation that is not url-timeout-flagged is passed through unchanged. -/
theorem baseFailureClassification :
    (dialTransform .netErrTimeout = some .connectTimeout ∧
      errIs .connectTimeout .errConnectTimeout = true ∧
      errIs .connectTimeout .errTimeout = false ∧
      classifyBaseErr (.urlWrapped .connectTimeout false) = .urlWrapped .connectTimeout false ∧
      errIs (.urlWrapped .connectTimeout false) .errConnectTimeout = true ∧
      errIs (.urlWrapped .connectTimeout false) .errTimeout = false) ∧
    (∀ t, dialTransform (.netErrOther t) = some (.connectionWrap t) ∧
      classifyBaseErr (.urlWrapped (.connectionWrap t) false) =
        .urlWrapped (.connectionWrap t) false ∧
      errIs (.urlWrapped (.connectionWrap t) false) .errConnection = true) ∧
    (∀ e, classifyBaseErr (.urlWrapped e true) = .timeoutWrap ∧
      errIs .timeoutWrap .errTimeout = true) ∧
    (∀ e, urlErrTimeoutCheck e = false →
      (errIs e .ctxDeadline = true ∨ errIs e .ctxCanceled = true) →
      classifyBaseErr e = e) := by
  refine ⟨by decide, ?_, ?_, ?_⟩
  · intro t
    refine ⟨rfl, rfl, ?_⟩
    simp [errIs]
  · intro e
    exact ⟨by simp [classifyBaseErr, urlErrTimeoutCheck], by decide⟩
  · intro e hflag _
    simp [classifyBaseErr, hflag]

/-- Witness for C4: the deadline-expiry passthrough at concrete error values. -/
theorem baseFailureClassification_witness :
    classifyBaseErr .deadlineExceeded = .deadlineExceeded ∧
    classifyBaseErr .canceled = .canceled ∧
    classifyBaseErr (.urlWrapped .canceled false) = .urlWrapped .canceled false :=
  ⟨baseFailureClassification.2.2.2 .deadlineExceeded (by decide) (Or.inl (by decide)),
   baseFailureClassification.2.2.2 .canceled (by decide) (Or.inr (by decide)),
   baseFailureClassification.2.2.2 (.urlWrapped .canceled false) (by decide)
     (Or.inr (by decide))⟩

end Storemono
